import Mathlib

/-!
Verification of the two arcade games in this repository: the falling-block
puzzle game (main.py) and the fixed shooter (space_invader.py).  The pure
game logic is embedded shallowly: grids are lists of lists of naturals,
pieces and sprites are structures, the imperative loops become folds or
fuel-indexed recursions, and pygame rectangles become explicit records.
-/

namespace Tetris

/-- Grid width in cells, constant GRID_WIDTH of main.py. -/
def GRID_WIDTH : Nat := 10

/-- Grid height in cells, constant GRID_HEIGHT of main.py. -/
def GRID_HEIGHT : Nat := 20

/-- The seven tetromino shape templates (I, O, T, S, Z, J, L), the SHAPES
list of main.py. -/
def SHAPES : List (List (List Nat)) :=
  [ [[1, 1, 1, 1]],
    [[1, 1],
     [1, 1]],
    [[0, 1, 0],
     [1, 1, 1]],
    [[0, 1, 1],
     [1, 1, 0]],
    [[1, 1, 0],
     [0, 1, 1]],
    [[1, 0, 0],
     [1, 1, 1]],
    [[0, 0, 1],
     [1, 1, 1]] ]

/-- The current falling piece: class Piece of main.py.  Coordinates and the
rotation counter are Python ints, hence ℤ here. -/
structure Piece where
  shape_idx : Nat
  color_idx : Nat
  shape : List (List Nat)
  x : Int
  y : Int
  rotation : Int

/-- Piece.__init__ of main.py: looks the shape up in SHAPES and centres the
piece horizontally at the top of the grid. -/
def Piece.init (shape_idx color_idx : Nat) : Piece :=
  let shape := SHAPES.getD shape_idx []
  { shape_idx := shape_idx
    color_idx := color_idx
    shape := shape
    x := ((GRID_WIDTH / 2 : Nat) : Int) - (((shape.headD []).length / 2 : Nat) : Int)
    y := 0
    rotation := 0 }

/-- Length of the shortest row; Python zip(*rows) truncates to it. -/
def minRowLen : List (List Nat) → Nat
  | [] => 0
  | [r] => r.length
  | r :: rs => min r.length (minRowLen rs)

/-- Python zip(*rows): the transpose truncated to the shortest row, empty
when there are no rows. -/
def pyZip (rows : List (List Nat)) : List (List Nat) :=
  match rows with
  | [] => []
  | _ :: _ => (List.range (minRowLen rows)).map (fun i => rows.map (fun r => r.getD i 0))

/-- One 90-degree clockwise rotation step of main.py:
zip(*shape[::-1]) turned back into a list of lists. -/
def rotateOnce (shape : List (List Nat)) : List (List Nat) :=
  pyZip shape.reverse

/-- Piece.get_rotated_shape of main.py: the stored shape with the rotation
step applied `rotation` times (a negative counter never occurs; Python's
range would iterate zero times, matching Int.toNat). -/
def Piece.get_rotated_shape (p : Piece) : List (List Nat) :=
  rotateOnce^[p.rotation.toNat] p.shape

/-- Piece.get_cells of main.py: grid coordinates (x, y) of the non-zero
entries of the rotated shape, offset by the piece origin. -/
def Piece.get_cells (p : Piece) : List (Int × Int) :=
  p.get_rotated_shape.enum.flatMap (fun yr =>
    yr.2.enum.filterMap (fun xc =>
      if xc.2 ≠ 0 then some (p.x + (xc.1 : Int), p.y + (yr.1 : Int)) else none))

/-- create_grid of main.py: GRID_HEIGHT rows of GRID_WIDTH zeros. -/
def create_grid : List (List Nat) :=
  List.replicate GRID_HEIGHT (List.replicate GRID_WIDTH 0)

/-- Cell read grid[y][x] (0 outside the stored lists). -/
def getCell (grid : List (List Nat)) (y x : Nat) : Nat :=
  (grid.getD y []).getD x 0

/-- Cell write grid[y][x] = v, a no-op outside the stored lists. -/
def setCell : List (List Nat) → Nat → Nat → Nat → List (List Nat)
  | [], _, _, _ => []
  | row :: rest, 0, x, v => row.set x v :: rest
  | row :: rest, Nat.succ y, x, v => row :: setCell rest y x v

/-- is_valid_position of main.py: every occupied cell is inside the
horizontal bounds and above the bottom, and cells with y ≥ 0 do not
overlap a non-zero grid cell (y < 0 is allowed for spawning). -/
def is_valid_position (piece : Piece) (grid : List (List Nat)) : Bool :=
  piece.get_cells.all (fun c =>
    if c.1 < 0 ∨ (GRID_WIDTH : Int) ≤ c.1 ∨ (GRID_HEIGHT : Int) ≤ c.2 then false
    else if 0 ≤ c.2 ∧ getCell grid c.2.toNat c.1.toNat ≠ 0 then false
    else true)

/-- lock_piece of main.py: write color_idx into every occupied cell that
lies inside the grid; out-of-range cells are skipped. -/
def lock_piece (piece : Piece) (grid : List (List Nat)) : List (List Nat) :=
  piece.get_cells.foldl (fun g c =>
    if 0 ≤ c.2 ∧ c.2 < (GRID_HEIGHT : Int) ∧ 0 ≤ c.1 ∧ c.1 < (GRID_WIDTH : Int) then
      setCell g c.2.toNat c.1.toNat piece.color_idx
    else g) grid

/-- Completeness test of one row: all(cell != 0 for cell in grid[y]). -/
def isFullRow (row : List Nat) : Bool :=
  row.all (fun cell => cell != 0)

/-- An empty row of GRID_WIDTH zeros, as inserted by clear_lines. -/
def emptyRow : List Nat := List.replicate GRID_WIDTH 0

/-- The while-loop of clear_lines, fuel-indexed: at index y, a full row is
deleted and an empty row pushed on top (y unchanged), otherwise y moves up.
Each iteration consumes one unit of fuel. -/
def clearLoop : Nat → List (List Nat) → Nat → Int → List (List Nat) × Nat
  | 0, grid, cleared, _ => (grid, cleared)
  | fuel + 1, grid, cleared, y =>
    if y < 0 then (grid, cleared)
    else if isFullRow (grid.getD y.toNat []) then
      clearLoop fuel (emptyRow :: grid.eraseIdx y.toNat) (cleared + 1) y
    else
      clearLoop fuel grid cleared (y - 1)

/-- clear_lines of main.py.  The loop starts at y = GRID_HEIGHT - 1 and
runs at most GRID_HEIGHT downward steps plus one removal per row, so
2 * GRID_HEIGHT + 1 units of fuel are never exhausted on a well-formed
grid. -/
def clear_lines (grid : List (List Nat)) : List (List Nat) × Nat :=
  clearLoop (2 * GRID_HEIGHT + 1) grid 0 ((GRID_HEIGHT : Int) - 1)

/-- is_game_over of main.py. -/
def is_game_over (piece : Piece) (grid : List (List Nat)) : Bool :=
  !is_valid_position piece grid

/-- The four game keys handled by the event loop of main.py. -/
inductive TKey where
  | left
  | right
  | down
  | up
deriving DecidableEq

/-- The mutation each KEYDOWN branch of main.py first applies. -/
def moveAttempt : TKey → Piece → Piece
  | TKey.left, p => { p with x := p.x - 1 }
  | TKey.right, p => { p with x := p.x + 1 }
  | TKey.down, p => { p with y := p.y + 1 }
  | TKey.up, p => { p with rotation := (p.rotation + 1) % 4 }

/-- The compensating mutation each branch applies when the new position is
invalid (Python's % on a positive modulus, i.e. Int.emod). -/
def moveRevert : TKey → Piece → Piece
  | TKey.left, p => { p with x := p.x + 1 }
  | TKey.right, p => { p with x := p.x - 1 }
  | TKey.down, p => { p with y := p.y - 1 }
  | TKey.up, p => { p with rotation := (p.rotation - 1) % 4 }

/-- One KEYDOWN branch of the event loop of main.py: mutate, test
is_valid_position, and undo the mutation when the test fails. -/
def handle_key (k : TKey) (piece : Piece) (grid : List (List Nat)) : Piece :=
  let moved := moveAttempt k piece
  if is_valid_position moved grid then moved else moveRevert k moved

/-- A pygame event as seen by the loop of main.py. -/
inductive TEvent where
  | quit
  | keydown (k : TKey)
  | other
deriving DecidableEq

/-- Processing of one event in the loop of main.py: QUIT clears running;
a KEYDOWN moves the piece unless the game is over. -/
def tetrisProcessEvent (game_over : Bool) (grid : List (List Nat))
    (st : Bool × Piece) (e : TEvent) : Bool × Piece :=
  match e with
  | TEvent.quit => (false, st.2)
  | TEvent.keydown k => (st.1, if game_over then st.2 else handle_key k st.2 grid)
  | TEvent.other => st

/-- The event loop of one frame of main.py over the polled event list. -/
def tetrisProcessEvents (game_over : Bool) (grid : List (List Nat))
    (events : List TEvent) (running : Bool) (piece : Piece) : Bool × Piece :=
  events.foldl (tetrisProcessEvent game_over grid) (running, piece)

/-- Grids reachable in a run of main.py: the empty start grid, locking any
piece produced by get_random_piece (color_idx = shape_idx + 1,
shape_idx ∈ 0..6, shape from SHAPES, any position and rotation), and
clearing lines. -/
inductive Reachable : List (List Nat) → Prop where
  | init : Reachable create_grid
  | lock (p : Piece) (g : List (List Nat)) :
      p.shape_idx < 7 → p.color_idx = p.shape_idx + 1 →
      p.shape = SHAPES.getD p.shape_idx [] →
      Reachable g → Reachable (lock_piece p g)
  | clear (g : List (List Nat)) : Reachable g → Reachable (clear_lines g).1

end Tetris

namespace Shooter

/-- Screen width in pixels, constant SCREEN_WIDTH of space_invader.py. -/
def SCREEN_WIDTH : Int := 800

/-- Screen height in pixels, constant SCREEN_HEIGHT of space_invader.py. -/
def SCREEN_HEIGHT : Int := 600

/-- Horizontal pixels per player move, constant PLAYER_SPEED. -/
def PLAYER_SPEED : Int := 5

/-- Vertical pixels per bullet step, constant BULLET_SPEED. -/
def BULLET_SPEED : Int := 7

/-- Base alien speed, constant ALIEN_SPEED. -/
def ALIEN_SPEED : Int := 1

/-- Vertical drop of the swarm at a screen edge, constant ALIEN_DROP. -/
def ALIEN_DROP : Int := 20

/-- Rows of aliens, constant ALIEN_ROWS. -/
def ALIEN_ROWS : Nat := 5

/-- Columns of aliens, constant ALIEN_COLS. -/
def ALIEN_COLS : Nat := 10

/-- Alien sprite width, constant ALIEN_WIDTH. -/
def ALIEN_WIDTH : Int := 40

/-- Alien sprite height, constant ALIEN_HEIGHT. -/
def ALIEN_HEIGHT : Int := 30

/-- Player sprite width, constant PLAYER_WIDTH. -/
def PLAYER_WIDTH : Int := 50

/-- Player sprite height, constant PLAYER_HEIGHT. -/
def PLAYER_HEIGHT : Int := 30

/-- Bullet sprite width, constant BULLET_WIDTH. -/
def BULLET_WIDTH : Int := 3

/-- Bullet sprite height, constant BULLET_HEIGHT. -/
def BULLET_HEIGHT : Int := 10

/-- A pygame Rect: position and size.  pygame rects store integer
coordinates; a float assigned to a coordinate is truncated toward zero. -/
structure Rect where
  x : Int
  y : Int
  w : Int
  h : Int
deriving DecidableEq

/-- Rect.left of pygame. -/
def Rect.left (r : Rect) : Int := r.x

/-- Rect.right of pygame. -/
def Rect.right (r : Rect) : Int := r.x + r.w

/-- Rect.top of pygame. -/
def Rect.top (r : Rect) : Int := r.y

/-- Rect.bottom of pygame. -/
def Rect.bottom (r : Rect) : Int := r.y + r.h

/-- Rect.centerx of pygame (integer division). -/
def Rect.centerx (r : Rect) : Int := r.x + r.w / 2

/-- Truncation toward zero of a rational, as pygame's rect assignment
performs on a float value. -/
def ratTrunc (q : ℚ) : Int := q.num / (q.den : Int)

/-- Rect.colliderect of pygame: the rectangles overlap on a region of
positive area (every sprite here has positive width and height). -/
def collideRect (a b : Rect) : Bool :=
  decide (a.x < b.x + b.w ∧ b.x < a.x + a.w ∧ a.y < b.y + b.h ∧ b.y < a.y + a.h)

/-- A projectile, class Bullet of space_invader.py.  pygame sprites compare
by identity; the id field models that identity for group membership and
list removal. -/
structure Bullet where
  id : Nat
  rect : Rect
  direction : Int
  speed : Int
deriving DecidableEq

/-- Bullet.__init__ of space_invader.py: centred at x (minus half the
bullet width, integer division), top edge at y. -/
def Bullet.init (idv : Nat) (x y : Int) (direction : Int) : Bullet :=
  { id := idv
    rect := { x := x - BULLET_WIDTH / 2, y := y, w := BULLET_WIDTH, h := BULLET_HEIGHT }
    direction := direction
    speed := BULLET_SPEED }

/-- Bullet.update of space_invader.py: move by speed * direction, then kill
the sprite and return True exactly when the rect left the screen
(bottom < 0 or top > SCREEN_HEIGHT). -/
def Bullet.update (b : Bullet) : Bullet × Bool :=
  let moved : Bullet := { b with rect := { b.rect with y := b.rect.y + b.speed * b.direction } }
  if moved.rect.bottom < 0 ∨ moved.rect.top > SCREEN_HEIGHT then (moved, true)
  else (moved, false)

/-- A single enemy, class Alien of space_invader.py, with an identity id as
for bullets. -/
structure Alien where
  id : Nat
  rect : Rect
  direction : Int
  last_shot : Int
  shot_delay : Int
deriving DecidableEq

/-- Alien.update of space_invader.py: horizontal move by speed * direction.
The speed variable of the loop is a Python number that can transiently be
a half-integer, so the move is computed in ℚ and truncated into the
integer rect as pygame does; at every actual call the speed is integral
and the truncation is exact. -/
def Alien.update (a : Alien) (speed : ℚ) : Alien :=
  { a with rect := { a.rect with x := ratTrunc ((a.rect.x : ℚ) + speed * (a.direction : ℚ)) } }

/-- Alien.should_shoot of space_invader.py: when the personal timer
expires, reset it (the fresh random delay is an oracle argument) and
report readiness. -/
def Alien.should_shoot (a : Alien) (current_time new_delay : Int) : Alien × Bool :=
  if current_time - a.last_shot > a.shot_delay then
    ({ a with last_shot := current_time, shot_delay := new_delay }, true)
  else (a, false)

/-- The player's ship, class Player of space_invader.py.  bullets holds the
identities of this player's live bullets. -/
structure Player where
  rect : Rect
  speed : Int
  bullets : List Nat
  max_bullets : Nat
deriving DecidableEq

/-- Player.__init__ of space_invader.py: centred near the bottom, no
bullets, at most two on screen. -/
def Player.init : Player :=
  { rect := { x := SCREEN_WIDTH / 2 - PLAYER_WIDTH / 2,
              y := SCREEN_HEIGHT - PLAYER_HEIGHT - 10,
              w := PLAYER_WIDTH, h := PLAYER_HEIGHT }
    speed := PLAYER_SPEED
    bullets := []
    max_bullets := 2 }

/-- The two held keys read by Player.update. -/
structure Keys where
  left : Bool
  right : Bool

/-- Player.update of space_invader.py: the left move only when
rect.left > 0, then the right move only when rect.right < SCREEN_WIDTH
against the possibly already moved rect. -/
def Player.update (p : Player) (keys : Keys) : Player :=
  let p1 := if keys.left ∧ p.rect.left > 0 then
      { p with rect := { p.rect with x := p.rect.x - p.speed } }
    else p
  if keys.right ∧ p1.rect.right < SCREEN_WIDTH then
    { p1 with rect := { p1.rect with x := p1.rect.x + p1.speed } }
  else p1

/-- Player.shoot of space_invader.py: with fewer than max_bullets live
bullets, create one at the ship's centre top, record it, and return it;
otherwise return None.  The fresh identity is an argument. -/
def Player.shoot (p : Player) (next_id : Nat) : Option Bullet × Player :=
  if p.bullets.length < p.max_bullets then
    let bullet := Bullet.init next_id p.rect.centerx p.rect.top (-1)
    (some bullet, { p with bullets := p.bullets ++ [bullet.id] })
  else (none, p)

/-- setup_aliens of space_invader.py: ALIEN_ROWS x ALIEN_COLS aliens on a
grid; initial per-alien random delays come from the oracle, indexed by the
alien's identity. -/
def setup_aliens (delays : Nat → Int) : List Alien :=
  (List.range ALIEN_ROWS).flatMap (fun row =>
    (List.range ALIEN_COLS).map (fun col =>
      { id := row * ALIEN_COLS + col
        rect := { x := (col : Int) * (ALIEN_WIDTH + 10) + 50,
                  y := (row : Int) * (ALIEN_HEIGHT + 10) + 50,
                  w := ALIEN_WIDTH, h := ALIEN_HEIGHT }
        direction := 1
        last_shot := 0
        shot_delay := delays (row * ALIEN_COLS + col) }))

/-- pygame.sprite.spritecollideany: the first sprite of the group whose
rect collides with the given sprite's rect. -/
def spritecollideany (b : Bullet) (aliens : List Alien) : Option Alien :=
  aliens.find? (fun al => collideRect b.rect al.rect)

/-- First loop of check_collisions: for each player bullet of the snapshot,
kill it together with the first alien it overlaps, add 10 to the score and
drop it from the player's bullet list. -/
def ccLoop : List Bullet → Player → List Bullet → List Alien → Int →
    Player × List Bullet × List Alien × Int
  | [], player, pbs, aliens, score => (player, pbs, aliens, score)
  | b :: rest, player, pbs, aliens, score =>
    match spritecollideany b aliens with
    | some al =>
      ccLoop rest { player with bullets := player.bullets.erase b.id }
        (pbs.filter (fun pb => pb.id != b.id))
        (aliens.filter (fun a => a.id != al.id))
        (score + 10)
    | none => ccLoop rest player pbs aliens score

/-- Second loop of check_collisions: on the first alien bullet overlapping
the player, kill that bullet and return immediately with True; the
remaining bullets are untouched. -/
def alienBulletScan (playerRect : Rect) : List Bullet → List Bullet × Bool
  | [] => ([], false)
  | b :: rest =>
    if collideRect b.rect playerRect then (rest, true)
    else
      let r := alienBulletScan playerRect rest
      (b :: r.1, r.2)

/-- Result of check_collisions: the mutated groups together with the
returned (player_hit, score) pair. -/
structure CollisionResult where
  player : Player
  player_bullets : List Bullet
  alien_bullets : List Bullet
  aliens : List Alien
  player_hit : Bool
  score : Int

/-- check_collisions of space_invader.py. -/
def check_collisions (player : Player) (player_bullets alien_bullets : List Bullet)
    (aliens : List Alien) (score : Int) : CollisionResult :=
  let r1 := ccLoop player_bullets player player_bullets aliens score
  let r2 := alienBulletScan r1.1.rect alien_bullets
  { player := r1.1
    player_bullets := r1.2.1
    alien_bullets := r2.1
    aliens := r1.2.2.1
    player_hit := r2.2
    score := r1.2.2.2 }

/-- The mutable state of main() of space_invader.py.  next_id is the
supply of sprite identities for newly created bullets. -/
structure GameState where
  player : Player
  aliens : List Alien
  player_bullets : List Bullet
  alien_bullets : List Bullet
  score : Int
  lives : Int
  alien_speed : ℚ
  game_over : Bool
  win : Bool
  last_alien_shot : Int
  last_alien_move : Int
  last_alien_drop : Int
  next_id : Nat

/-- The random draws one frame can consume: a fresh shot delay per alien
identity and the index for random.choice. -/
structure Oracle where
  delays : Nat → Int
  choice : Nat

/-- Python max(column, key y): the first alien with the largest rect.y. -/
def maxByY (a : Alien) (rest : List Alien) : Alien :=
  rest.foldl (fun m b => if b.rect.y > m.rect.y then b else m) a

/-- Bottom-of-column test of space_invader.py: the alien is (by identity)
the lowest of the aliens sharing its rect.x. -/
def isBottomOfColumn (alien : Alien) (aliens : List Alien) : Bool :=
  match aliens.filter (fun a => a.rect.x == alien.rect.x) with
  | [] => false
  | a :: rest => alien.id == (maxByY a rest).id

/-- The alien-shooting section of the loop (runs when the global cooldown
has expired): every alien whose personal timer fired is reset with a fresh
oracle delay; those of them at the bottom of their column are candidates;
random.choice picks one, which emits a downward bullet from its centre
bottom. -/
def alienShootPhase (aliens : List Alien) (alien_bullets : List Bullet)
    (current_time : Int) (o : Oracle) (next_id : Nat) (last_alien_shot : Int) :
    List Alien × List Bullet × Int × Nat :=
  let fires : Alien → Bool := fun a => decide (current_time - a.last_shot > a.shot_delay)
  let shooting := (aliens.filter fires).filter (fun a => isBottomOfColumn a aliens)
  let aliens2 := aliens.map (fun a =>
    if fires a then { a with last_shot := current_time, shot_delay := o.delays a.id } else a)
  match shooting with
  | [] => (aliens2, alien_bullets, last_alien_shot, next_id)
  | a :: rest =>
    let chosen := (a :: rest).getD (o.choice % (a :: rest).length) a
    let bullet := Bullet.init next_id chosen.rect.centerx chosen.rect.bottom 1
    (aliens2, alien_bullets ++ [bullet], current_time, next_id + 1)

/-- Lines 210-221 of the update section: player.update(keys), the player
bullets' moves with off-screen cleanup (pruning the player's own bullet
list), and alien_bullets.update(). -/
def frameP1 (s : GameState) (keys : Keys) : GameState :=
  let player := s.player.update keys
  let movedP := s.player_bullets.map Bullet.update
  let killedIds := (movedP.filter (fun bb => bb.2)).map (fun bb => bb.1.id)
  let player_bullets := (movedP.filter (fun bb => !bb.2)).map (fun bb => bb.1)
  let player2 := { player with bullets := killedIds.foldl (fun l i => l.erase i) player.bullets }
  let alien_bullets := ((s.alien_bullets.map Bullet.update).filter (fun bb => !bb.2)).map (fun bb => bb.1)
  { s with
    player := player2
    player_bullets := player_bullets
    alien_bullets := alien_bullets }

/-- Lines 223-247 of the update section: the timed alien movement with the
screen-edge test (against the pre-move rects), the swarm drop with
direction flip, and the transient alien_speed += 0.5. -/
def frameP2 (s : GameState) (current_time : Int) : GameState :=
  if current_time - s.last_alien_move > 50 then
    let need_drop := s.aliens.any (fun a =>
      decide (a.rect.left ≤ 0 ∨ a.rect.right ≥ SCREEN_WIDTH))
    let aliens := s.aliens.map (fun a => a.update s.alien_speed)
    if need_drop ∧ current_time - s.last_alien_drop > 300 then
      let dropped := aliens.map (fun a =>
        { a with
          direction := -a.direction
          rect := { a.rect with y := a.rect.y + ALIEN_DROP } })
      { s with
        aliens := dropped
        alien_speed := s.alien_speed + (1 / 2 : ℚ)
        last_alien_move := current_time
        last_alien_drop := current_time }
    else
      { s with aliens := aliens, last_alien_move := current_time }
  else s

/-- Lines 249-265 of the update section: the globally cooled-down alien
shooting. -/
def frameP3 (s : GameState) (current_time : Int) (o : Oracle) : GameState :=
  if current_time - s.last_alien_shot > 500 then
    let r := alienShootPhase s.aliens s.alien_bullets current_time o s.next_id s.last_alien_shot
    { s with
      aliens := r.1
      alien_bullets := r.2.1
      last_alien_shot := r.2.2.1
      next_id := r.2.2.2 }
  else s

/-- Lines 267-286 of the update section: check_collisions, the lives and
player-reset bookkeeping on a hit, the aliens-reached-the-bottom check,
and the win check. -/
def frameP4 (s : GameState) : GameState :=
  let cr := check_collisions s.player s.player_bullets s.alien_bullets s.aliens s.score
  let hitRes :=
    if cr.player_hit then
      if s.lives - 1 ≤ 0 then (s.lives - 1, true, cr.player)
      else (s.lives - 1, s.game_over,
        { cr.player with rect := { cr.player.rect with
            x := SCREEN_WIDTH / 2 - PLAYER_WIDTH / 2 } })
    else (s.lives, s.game_over, cr.player)
  let player := hitRes.2.2
  let game_over := hitRes.2.1 || cr.aliens.any (fun a =>
    decide (a.rect.bottom ≥ player.rect.top))
  let win := if cr.aliens.length = 0 then true else s.win
  { s with
    player := player
    player_bullets := cr.player_bullets
    alien_bullets := cr.alien_bullets
    aliens := cr.aliens
    score := cr.score
    lives := hitRes.1
    game_over := game_over
    win := win }

/-- The state-update section of one frame of main() of space_invader.py
(the body of "if not game_over and not win:"), up to but excluding the
final alien_speed recomputation; the phases run in source order. -/
def updateBlockCore (s : GameState) (current_time : Int) (keys : Keys) (o : Oracle) :
    GameState :=
  frameP4 (frameP3 (frameP2 (frameP1 s keys) current_time) current_time o)

/-- The full state-update section of one frame: updateBlockCore followed
by the unconditional recomputation
alien_speed = ALIEN_SPEED + (ALIEN_ROWS * ALIEN_COLS - len(aliens)) // 10
(Python floor division). -/
def updateBlock (s : GameState) (current_time : Int) (keys : Keys) (o : Oracle) :
    GameState :=
  let s9 := updateBlockCore s current_time keys o
  { s9 with alien_speed :=
      ((ALIEN_SPEED + Int.fdiv (((ALIEN_ROWS * ALIEN_COLS : Nat) : Int) - (s9.aliens.length : Int)) 10 : Int) : ℚ) }

/-- A pygame event as seen by the loop of space_invader.py. -/
inductive SEvent where
  | quit
  | keySpace
  | other
deriving DecidableEq

/-- Processing of one event in the loop of space_invader.py over the state
(running, player, player_bullets, next_id): QUIT clears running; SPACE
fires (when the game is still on) and adds the new bullet to the group. -/
def shooterProcessEvent (game_over win : Bool)
    (st : Bool × Player × List Bullet × Nat) (e : SEvent) :
    Bool × Player × List Bullet × Nat :=
  match e with
  | SEvent.quit => (false, st.2)
  | SEvent.keySpace =>
    if game_over ∨ win then st
    else
      let r := st.2.1.shoot st.2.2.2
      match r.1 with
      | some b => (st.1, r.2, st.2.2.1 ++ [b], st.2.2.2 + 1)
      | none => (st.1, r.2, st.2.2.1, st.2.2.2)
  | SEvent.other => st

/-- The event loop of one frame of space_invader.py. -/
def shooterProcessEvents (game_over win : Bool) (events : List SEvent)
    (running : Bool) (player : Player) (player_bullets : List Bullet)
    (next_id : Nat) : Bool × Player × List Bullet × Nat :=
  events.foldl (shooterProcessEvent game_over win) (running, player, player_bullets, next_id)

end Shooter

namespace Tetris

/-- Four clockwise rotation steps restore each of the seven shape
templates. -/
theorem rotateOnce_four_on_SHAPES : ∀ s ∈ SHAPES, rotateOnce^[4] s = s := by decide

/-- Number of full rows of a grid. -/
def countFull (g : List (List Nat)) : Nat :=
  (g.filter (fun r => isFullRow r)).length

/-- The empty row has GRID_WIDTH zero cells, so it is never full. -/
theorem isFullRow_emptyRow : isFullRow emptyRow = false := by decide

/-- A negative index terminates the clear_lines loop at once. -/
theorem clearLoop_of_neg (fuel : Nat) (g : List (List Nat)) (c : Nat) (y : Int)
    (hy : y < 0) : clearLoop fuel g c y = (g, c) := by
  cases fuel with
  | zero => rfl
  | succ f => simp [clearLoop, hy]

/-- Behaviour of the clear_lines loop from index y downward, provided the
rows strictly below y are already non-full and the fuel covers one unit
per downward step plus one per full row: the result replaces the full rows
by empty rows on top of the surviving rows, in order, and adds their
number to the counter. -/
theorem clearLoop_spec (fuel : Nat) :
    ∀ (y : Nat) (grid : List (List Nat)) (cleared : Nat),
      y < grid.length →
      (∀ r ∈ grid.drop (y + 1), isFullRow r = false) →
      y + 1 + countFull grid ≤ fuel →
      clearLoop fuel grid cleared (y : Int) =
        (List.replicate (countFull grid) emptyRow ++ grid.filter (fun r => !isFullRow r),
          cleared + countFull grid) := by
  induction fuel with
  | zero => intro y grid cleared _ _ hfuel; omega
  | succ f ih =>
    intro y grid cleared hy hbelow hfuel
    have hynn : ¬((y : Int) < 0) := by omega
    have htn : ((y : Int)).toNat = y := Int.toNat_natCast y
    have hgetD : grid.getD y [] = grid[y] := List.getD_eq_getElem _ _ hy
    rw [clearLoop, if_neg hynn, htn, hgetD]
    by_cases hfull : isFullRow grid[y]
    · rw [if_pos hfull]
      -- decompose the grid around row y
      set A := grid.take y with hAdef
      set B := grid.drop (y + 1) with hBdef
      have hA : A.length = y := by rw [hAdef, List.length_take]; omega
      have hdropy : grid.drop y = grid[y] :: B := List.drop_eq_getElem_cons hy
      have hgrid : A ++ grid[y] :: B = grid := by
        rw [← hdropy, hAdef]; exact List.take_append_drop y grid
      have herase : grid.eraseIdx y = A ++ B :=
        List.eraseIdx_eq_take_drop_succ grid y
      -- count of full rows drops by one
      have hcount : countFull (emptyRow :: grid.eraseIdx y) + 1 = countFull grid := by
        unfold countFull
        conv_rhs => rw [← hgrid]
        rw [herase]
        simp [List.filter_append, List.filter_cons, hfull, isFullRow_emptyRow]
        omega
      -- surviving rows are unchanged
      have hkeep : (emptyRow :: grid.eraseIdx y).filter (fun r => !isFullRow r) =
          emptyRow :: grid.filter (fun r => !isFullRow r) := by
        conv_rhs => rw [← hgrid]
        rw [herase]
        simp [List.filter_append, List.filter_cons, hfull, isFullRow_emptyRow]
      -- the loop hypotheses for the shrunk grid
      have hlen : y < (emptyRow :: grid.eraseIdx y).length := by
        simp only [List.length_cons, List.length_eraseIdx, hy, if_pos]
        omega
      have hbelow' : ∀ r ∈ (emptyRow :: grid.eraseIdx y).drop (y + 1),
          isFullRow r = false := by
        intro r hr
        apply hbelow
        rw [herase] at hr
        simp only [List.drop_succ_cons] at hr
        rw [← hA, List.drop_left] at hr
        exact hr
      have hfuel' : y + 1 + countFull (emptyRow :: grid.eraseIdx y) ≤ f := by omega
      rw [ih y (emptyRow :: grid.eraseIdx y) (cleared + 1) hlen hbelow' hfuel']
      rw [hkeep]
      have hrep : List.replicate (countFull grid) emptyRow =
          List.replicate (countFull (emptyRow :: grid.eraseIdx y)) emptyRow ++ [emptyRow] := by
        rw [← hcount]
        exact List.replicate_succ' _ emptyRow
      rw [hrep, List.append_assoc, List.singleton_append]
      have harith : cleared + 1 + countFull (emptyRow :: grid.eraseIdx y) =
          cleared + countFull grid := by omega
      rw [harith]
    · rw [if_neg hfull]
      cases y with
      | zero =>
        have hstop : clearLoop f grid cleared (((0 : Nat) : Int) - 1) = (grid, cleared) :=
          clearLoop_of_neg f grid cleared _ (by omega)
        have hnone : ∀ r ∈ grid, isFullRow r = false := by
          intro r hr
          have hdrop0 : grid.drop 0 = grid[0] :: grid.drop 1 :=
            List.drop_eq_getElem_cons hy
          rw [← List.drop_zero grid, hdrop0] at hr
          rcases List.mem_cons.mp hr with h | h
          · rw [h]; exact Bool.eq_false_iff.mpr hfull
          · exact hbelow r h
        have hcf : countFull grid = 0 := by
          unfold countFull
          rw [List.filter_eq_nil_iff.mpr (fun r hr => by simp [hnone r hr])]
          rfl
        have hself : grid.filter (fun r => !isFullRow r) = grid :=
          List.filter_eq_self.mpr (fun r hr => by simp [hnone r hr])
        rw [hstop, hcf, hself]
        simp
      | succ y' =>
        have hcast : ((y' + 1 : Nat) : Int) - 1 = (y' : Int) := by push_cast; ring
        rw [hcast]
        have hdropy : grid.drop (y' + 1) = grid[y' + 1] :: grid.drop (y' + 2) :=
          List.drop_eq_getElem_cons hy
        have hbelow' : ∀ r ∈ grid.drop (y' + 1), isFullRow r = false := by
          intro r hr
          rw [hdropy] at hr
          rcases List.mem_cons.mp hr with h | h
          · rw [h]; exact Bool.eq_false_iff.mpr hfull
          · exact hbelow r h
        exact ih y' grid cleared (by omega) hbelow' (by omega)

/-- The event fold of main.py never sets running while no QUIT event is
polled. -/
theorem tetris_events_keep_running (go : Bool) (grid : List (List Nat)) :
    ∀ (events : List TEvent) (st : Bool × Piece),
      (∀ e ∈ events, e ≠ TEvent.quit) →
      (events.foldl (tetrisProcessEvent go grid) st).1 = st.1 := by
  intro events
  induction events with
  | nil => intro st _; rfl
  | cons e rest ih =>
    intro st h
    rw [List.foldl_cons]
    have h1 : (tetrisProcessEvent go grid st e).1 = st.1 := by
      cases e with
      | quit => exact absurd rfl (h _ (by simp))
      | keydown k => rfl
      | other => rfl
    rw [ih _ (fun e he => h e (List.mem_cons_of_mem _ he))]
    exact h1

/-- setCell is List.set of the modified row (a no-op outside the grid). -/
theorem setCell_eq_set (g : List (List Nat)) (y x v : Nat) :
    setCell g y x v = g.set y ((g.getD y []).set x v) := by
  induction g generalizing y with
  | nil => cases y <;> rfl
  | cons row rest ih =>
    cases y with
    | zero => rfl
    | succ y' =>
      show row :: setCell rest y' x v = _
      rw [ih]
      rfl

/-- setCell preserves the number of rows. -/
theorem length_setCell (g : List (List Nat)) (y x v : Nat) :
    (setCell g y x v).length = g.length := by
  rw [setCell_eq_set, List.length_set]

/-- setCell preserves the length of every row. -/
theorem rowLen_setCell (g : List (List Nat)) (y x v i : Nat) :
    ((setCell g y x v).getD i []).length = (g.getD i []).length := by
  rw [setCell_eq_set]
  by_cases hy : y = i
  · subst hy
    by_cases hlt : y < g.length
    · rw [List.getD_eq_getElem?_getD, List.getElem?_set_self hlt, Option.getD_some,
        List.length_set]
    · rw [List.set_eq_of_length_le (by omega)]
  · rw [List.getD_eq_getElem?_getD, List.getElem?_set_ne hy, ← List.getD_eq_getElem?_getD]

/-- Reading back the cell just written (in-range write). -/
theorem getCell_setCell_same (g : List (List Nat)) (y x v : Nat)
    (hy : y < g.length) (hx : x < (g.getD y []).length) :
    getCell (setCell g y x v) y x = v := by
  rw [setCell_eq_set]
  unfold getCell
  have hrow : (g.set y ((g.getD y []).set x v)).getD y [] = (g.getD y []).set x v := by
    rw [List.getD_eq_getElem?_getD, List.getElem?_set_self hy, Option.getD_some]
  rw [hrow, List.getD_eq_getElem?_getD, List.getElem?_set_self hx, Option.getD_some]

/-- Reading any other cell after a setCell. -/
theorem getCell_setCell_ne (g : List (List Nat)) (y x v y' x' : Nat)
    (h : ¬(y' = y ∧ x' = x)) :
    getCell (setCell g y x v) y' x' = getCell g y' x' := by
  rw [setCell_eq_set]
  unfold getCell
  by_cases hy : y' = y
  · subst hy
    have hx : x ≠ x' := fun hh => h ⟨rfl, hh.symm⟩
    by_cases hlt : y' < g.length
    · have hrow : (g.set y' ((g.getD y' []).set x v)).getD y' [] = (g.getD y' []).set x v := by
        rw [List.getD_eq_getElem?_getD, List.getElem?_set_self hlt, Option.getD_some]
      rw [hrow, List.getD_eq_getElem?_getD, List.getElem?_set_ne hx,
        ← List.getD_eq_getElem?_getD]
    · rw [List.set_eq_of_length_le (by omega)]
  · have hrow : (g.set y ((g.getD y []).set x v)).getD y' [] = g.getD y' [] := by
      rw [List.getD_eq_getElem?_getD, List.getElem?_set_ne (fun hh => hy hh.symm),
        ← List.getD_eq_getElem?_getD]
    rw [hrow]

/-- In-bounds test each write of lock_piece performs. -/
def cellInBounds (c : Int × Int) : Prop :=
  0 ≤ c.2 ∧ c.2 < (GRID_HEIGHT : Int) ∧ 0 ≤ c.1 ∧ c.1 < (GRID_WIDTH : Int)

instance (c : Int × Int) : Decidable (cellInBounds c) := by
  unfold cellInBounds
  infer_instance

/-- Effect of the write fold of lock_piece on an arbitrary cell: the cells
of the list that are in bounds and name the position get the value, every
other position keeps its previous content. -/
theorem lockFold_getCell (v : Nat) :
    ∀ (cells : List (Int × Int)) (g : List (List Nat)) (y x : Nat),
      y < g.length → x < (g.getD y []).length →
      getCell (cells.foldl (fun gr c =>
          if 0 ≤ c.2 ∧ c.2 < (GRID_HEIGHT : Int) ∧ 0 ≤ c.1 ∧ c.1 < (GRID_WIDTH : Int) then
            setCell gr c.2.toNat c.1.toNat v
          else gr) g) y x =
        if ∃ c ∈ cells, cellInBounds c ∧ c.2.toNat = y ∧ c.1.toNat = x then v
        else getCell g y x := by
  intro cells
  induction cells with
  | nil =>
    intro g y x _ _
    simp
  | cons c rest ih =>
    intro g y x hy hx
    rw [List.foldl_cons]
    by_cases hc : cellInBounds c
    · have hcif : (if 0 ≤ c.2 ∧ c.2 < (GRID_HEIGHT : Int) ∧ 0 ≤ c.1 ∧ c.1 < (GRID_WIDTH : Int)
          then setCell g c.2.toNat c.1.toNat v else g) = setCell g c.2.toNat c.1.toNat v :=
        if_pos hc
      rw [hcif]
      have hy' : y < (setCell g c.2.toNat c.1.toNat v).length := by
        rw [length_setCell]; exact hy
      have hx' : x < ((setCell g c.2.toNat c.1.toNat v).getD y []).length := by
        rw [rowLen_setCell]; exact hx
      rw [ih _ y x hy' hx']
      by_cases hmatch : c.2.toNat = y ∧ c.1.toNat = x
      · have hex : ∃ d ∈ c :: rest, cellInBounds d ∧ d.2.toNat = y ∧ d.1.toNat = x :=
          ⟨c, List.mem_cons_self c rest, hc, hmatch⟩
        rw [if_pos hex]
        by_cases hrest : ∃ d ∈ rest, cellInBounds d ∧ d.2.toNat = y ∧ d.1.toNat = x
        · rw [if_pos hrest]
        · rw [if_neg hrest, hmatch.1, hmatch.2]
          exact getCell_setCell_same g y x v hy hx
      · have hne : getCell (setCell g c.2.toNat c.1.toNat v) y x = getCell g y x :=
          getCell_setCell_ne g c.2.toNat c.1.toNat v y x
            (fun hh => hmatch ⟨hh.1.symm, hh.2.symm⟩)
        rw [hne]
        have hiff : (∃ d ∈ c :: rest, cellInBounds d ∧ d.2.toNat = y ∧ d.1.toNat = x) ↔
            ∃ d ∈ rest, cellInBounds d ∧ d.2.toNat = y ∧ d.1.toNat = x := by
          rw [List.exists_mem_cons_iff]
          constructor
          · rintro (⟨_, hm⟩ | h)
            · exact absurd hm hmatch
            · exact h
          · exact Or.inr
        by_cases hrest : ∃ d ∈ rest, cellInBounds d ∧ d.2.toNat = y ∧ d.1.toNat = x
        · rw [if_pos hrest, if_pos (hiff.mpr hrest)]
        · rw [if_neg hrest, if_neg (fun hh => hrest (hiff.mp hh))]
    · have hcif : (if 0 ≤ c.2 ∧ c.2 < (GRID_HEIGHT : Int) ∧ 0 ≤ c.1 ∧ c.1 < (GRID_WIDTH : Int)
          then setCell g c.2.toNat c.1.toNat v else g) = g := if_neg hc
      rw [hcif, ih g y x hy hx]
      have hiff : (∃ d ∈ c :: rest, cellInBounds d ∧ d.2.toNat = y ∧ d.1.toNat = x) ↔
          ∃ d ∈ rest, cellInBounds d ∧ d.2.toNat = y ∧ d.1.toNat = x := by
        rw [List.exists_mem_cons_iff]
        constructor
        · rintro (⟨hb, _⟩ | h)
          · exact absurd hb hc
          · exact h
        · exact Or.inr
      by_cases hrest : ∃ d ∈ rest, cellInBounds d ∧ d.2.toNat = y ∧ d.1.toNat = x
      · rw [if_pos hrest, if_pos (hiff.mpr hrest)]
      · rw [if_neg hrest, if_neg (fun hh => hrest (hiff.mp hh))]

/-- The write fold of lock_piece preserves the number of rows. -/
theorem lockFold_length (v : Nat) :
    ∀ (cells : List (Int × Int)) (g : List (List Nat)),
      (cells.foldl (fun gr c =>
          if 0 ≤ c.2 ∧ c.2 < (GRID_HEIGHT : Int) ∧ 0 ≤ c.1 ∧ c.1 < (GRID_WIDTH : Int) then
            setCell gr c.2.toNat c.1.toNat v
          else gr) g).length = g.length := by
  intro cells
  induction cells with
  | nil => intro g; rfl
  | cons c rest ih =>
    intro g
    rw [List.foldl_cons]
    rw [ih]
    by_cases hc : 0 ≤ c.2 ∧ c.2 < (GRID_HEIGHT : Int) ∧ 0 ≤ c.1 ∧ c.1 < (GRID_WIDTH : Int)
    · rw [if_pos hc, length_setCell]
    · rw [if_neg hc]

/-- The write fold of lock_piece preserves the length of every row. -/
theorem lockFold_rowLen (v : Nat) :
    ∀ (cells : List (Int × Int)) (g : List (List Nat)) (i : Nat),
      ((cells.foldl (fun gr c =>
          if 0 ≤ c.2 ∧ c.2 < (GRID_HEIGHT : Int) ∧ 0 ≤ c.1 ∧ c.1 < (GRID_WIDTH : Int) then
            setCell gr c.2.toNat c.1.toNat v
          else gr) g).getD i []).length = (g.getD i []).length := by
  intro cells
  induction cells with
  | nil => intro g i; rfl
  | cons c rest ih =>
    intro g i
    rw [List.foldl_cons, ih]
    by_cases hc : 0 ≤ c.2 ∧ c.2 < (GRID_HEIGHT : Int) ∧ 0 ≤ c.1 ∧ c.1 < (GRID_WIDTH : Int)
    · rw [if_pos hc, rowLen_setCell]
    · rw [if_neg hc]

/-- Well-formedness of a game grid: 20 rows of 10 cells, every cell at
most 7. -/
def GridOK (g : List (List Nat)) : Prop :=
  g.length = GRID_HEIGHT ∧ (∀ row ∈ g, row.length = GRID_WIDTH) ∧
    ∀ row ∈ g, ∀ c ∈ row, c ≤ 7

/-- The starting grid is well-formed. -/
theorem gridOK_create : GridOK create_grid := by
  refine ⟨rfl, ?_, ?_⟩ <;> decide

/-- A setCell write of a value at most 7 keeps all cells at most 7. -/
theorem setCell_cells_le (g : List (List Nat)) (y x v : Nat) (hv : v ≤ 7)
    (hg : ∀ row ∈ g, ∀ c ∈ row, c ≤ 7) :
    ∀ row ∈ setCell g y x v, ∀ c ∈ row, c ≤ 7 := by
  rw [setCell_eq_set]
  intro row hrow c hc
  rcases List.mem_or_eq_of_mem_set hrow with h | h
  · exact hg row h c hc
  · subst h
    rcases List.mem_or_eq_of_mem_set hc with h2 | h2
    · by_cases hy : y < g.length
      · rw [List.getD_eq_getElem _ _ hy] at h2
        exact hg _ (List.getElem_mem hy) c h2
      · rw [List.getD_eq_default _ _ (by omega)] at h2
        exact absurd h2 (List.not_mem_nil c)
    · omega

/-- The write fold of lock_piece keeps all cells at most 7 when the written
value is. -/
theorem lockFold_cells_le (v : Nat) (hv : v ≤ 7) :
    ∀ (cells : List (Int × Int)) (g : List (List Nat)),
      (∀ row ∈ g, ∀ c ∈ row, c ≤ 7) →
      ∀ row ∈ (cells.foldl (fun gr c =>
          if 0 ≤ c.2 ∧ c.2 < (GRID_HEIGHT : Int) ∧ 0 ≤ c.1 ∧ c.1 < (GRID_WIDTH : Int) then
            setCell gr c.2.toNat c.1.toNat v
          else gr) g), ∀ c ∈ row, c ≤ 7 := by
  intro cells
  induction cells with
  | nil => intro g hg; exact hg
  | cons c rest ih =>
    intro g hg
    rw [List.foldl_cons]
    apply ih
    by_cases hc : 0 ≤ c.2 ∧ c.2 < (GRID_HEIGHT : Int) ∧ 0 ≤ c.1 ∧ c.1 < (GRID_WIDTH : Int)
    · rw [if_pos hc]
      exact setCell_cells_le g c.2.toNat c.1.toNat v hv hg
    · rw [if_neg hc]
      exact hg

/-- lock_piece preserves grid well-formedness whenever the locked colour
is at most 7. -/
theorem gridOK_lock (p : Piece) (g : List (List Nat)) (hv : p.color_idx ≤ 7)
    (hg : GridOK g) : GridOK (lock_piece p g) := by
  obtain ⟨h1, h2, h3⟩ := hg
  refine ⟨?_, ?_, ?_⟩
  · unfold lock_piece
    rw [lockFold_length]
    exact h1
  · intro row hrow
    obtain ⟨i, hi, hrowi⟩ := List.mem_iff_getElem.mp hrow
    have hlock_len : (lock_piece p g).length = g.length := by
      unfold lock_piece
      rw [lockFold_length]
    have hgi : i < g.length := by omega
    have hidx : (lock_piece p g)[i] = (lock_piece p g).getD i [] :=
      (List.getD_eq_getElem _ _ hi).symm
    have hleni : ((lock_piece p g).getD i []).length = (g.getD i []).length := by
      unfold lock_piece
      rw [lockFold_rowLen]
    rw [← hrowi, hidx, hleni, List.getD_eq_getElem _ _ hgi]
    exact h2 _ (List.getElem_mem hgi)
  · unfold lock_piece
    exact lockFold_cells_le p.color_idx hv p.get_cells g h3

/-- Helper form of clear_lines on any 20-row grid: full rows out, empty
rows on top, count returned. -/
theorem clear_lines_eq (grid : List (List Nat)) (hlen : grid.length = GRID_HEIGHT) :
    clear_lines grid =
      (List.replicate (countFull grid) emptyRow ++ grid.filter (fun r => !isFullRow r),
        countFull grid) := by
  have hk : countFull grid ≤ 20 := by
    have := List.length_filter_le (fun r => isFullRow r) grid
    unfold countFull
    have h20 : grid.length = 20 := hlen
    omega
  have h20 : grid.length = 20 := hlen
  unfold clear_lines
  have hcast : ((GRID_HEIGHT : Nat) : Int) - 1 = ((19 : Nat) : Int) := by decide
  rw [hcast]
  have := clearLoop_spec (2 * GRID_HEIGHT + 1) 19 grid 0 (by omega)
    (by
      intro r hr
      rw [List.drop_eq_nil_of_le (by omega)] at hr
      exact absurd hr (List.not_mem_nil r))
    (by
      have : 2 * GRID_HEIGHT + 1 = 41 := rfl
      omega)
  rw [this]
  norm_num

/-- clear_lines preserves grid well-formedness. -/
theorem gridOK_clear (g : List (List Nat)) (hg : GridOK g) : GridOK (clear_lines g).1 := by
  obtain ⟨h1, h2, h3⟩ := hg
  rw [clear_lines_eq g h1]
  refine ⟨?_, ?_, ?_⟩
  · have hpart := @List.length_eq_length_filter_add _ g (fun r => isFullRow r)
    simp only [List.length_append, List.length_replicate]
    unfold countFull
    simp only [Bool.not_eq_true'] at hpart ⊢
    have h20 : g.length = 20 := h1
    omega
  · intro row hrow
    rcases List.mem_append.mp hrow with h | h
    · rw [(List.eq_of_mem_replicate h : row = emptyRow)]
      rfl
    · exact h2 row (List.mem_of_mem_filter h)
  · intro row hrow
    rcases List.mem_append.mp hrow with h | h
    · rw [(List.eq_of_mem_replicate h : row = emptyRow)]
      decide
    · exact h3 row (List.mem_of_mem_filter h)

/-- Every reachable grid of main.py is well-formed. -/
theorem reachable_gridOK : ∀ g, Reachable g → GridOK g := by
  intro g h
  induction h with
  | init => exact gridOK_create
  | lock p g hsi hci _ _ ih => exact gridOK_lock p g (by omega) ih
  | clear g _ ih => exact gridOK_clear g ih

end Tetris

namespace Shooter

/-- The event fold of space_invader.py never sets running while no QUIT
event is polled. -/
theorem shooter_events_keep_running (go win : Bool) :
    ∀ (events : List SEvent) (st : Bool × Player × List Bullet × Nat),
      (∀ e ∈ events, e ≠ SEvent.quit) →
      (events.foldl (shooterProcessEvent go win) st).1 = st.1 := by
  intro events
  induction events with
  | nil => intro st _; rfl
  | cons e rest ih =>
    intro st h
    rw [List.foldl_cons]
    have h1 : (shooterProcessEvent go win st e).1 = st.1 := by
      cases e with
      | quit => exact absurd rfl (h _ (by simp))
      | keySpace =>
        simp only [shooterProcessEvent]
        rcases hob : (st.2.1.shoot st.2.2.2).1 with _ | b <;>
          simp only [hob] <;> split <;> rfl
      | other => rfl
    rw [ih _ (fun e he => h e (List.mem_cons_of_mem _ he))]
    exact h1

/-- The first collision loop never changes the player's rect. -/
theorem ccLoop_player_rect : ∀ (snapshot : List Bullet) (p : Player)
    (pbs : List Bullet) (aliens : List Alien) (score : Int),
    (ccLoop snapshot p pbs aliens score).1.rect = p.rect := by
  intro snapshot
  induction snapshot with
  | nil => intro p pbs aliens score; rfl
  | cons b rest ih =>
    intro p pbs aliens score
    simp only [ccLoop]
    cases hfind : spritecollideany b aliens with
    | some al => simp only [hfind, ih]
    | none => simp only [hfind, ih]

/-- The first collision loop only removes aliens. -/
theorem ccLoop_aliens_sublist : ∀ (snapshot : List Bullet) (p : Player)
    (pbs : List Bullet) (aliens : List Alien) (score : Int),
    List.Sublist (ccLoop snapshot p pbs aliens score).2.2.1 aliens := by
  intro snapshot
  induction snapshot with
  | nil => intro p pbs aliens score; exact List.Sublist.refl aliens
  | cons b rest ih =>
    intro p pbs aliens score
    simp only [ccLoop]
    cases hfind : spritecollideany b aliens with
    | some al =>
      simp only [hfind]
      exact (ih _ _ _ _).trans (List.filter_sublist aliens)
    | none =>
      simp only [hfind]
      exact ih _ _ _ _

/-- The first collision loop only removes player bullets from the group. -/
theorem ccLoop_pbs_sublist : ∀ (snapshot : List Bullet) (p : Player)
    (pbs : List Bullet) (aliens : List Alien) (score : Int),
    List.Sublist (ccLoop snapshot p pbs aliens score).2.1 pbs := by
  intro snapshot
  induction snapshot with
  | nil => intro p pbs aliens score; exact List.Sublist.refl pbs
  | cons b rest ih =>
    intro p pbs aliens score
    simp only [ccLoop]
    cases hfind : spritecollideany b aliens with
    | some al =>
      simp only [hfind]
      exact (ih _ _ _ _).trans (List.filter_sublist pbs)
    | none =>
      simp only [hfind]
      exact ih _ _ _ _

/-- Removing the first alien hit by a bullet removes exactly one alien
when the alien identities are distinct. -/
theorem length_filter_ne_id (aliens : List Alien) (al : Alien)
    (hmem : al ∈ aliens) (hnd : (aliens.map Alien.id).Nodup) :
    (aliens.filter (fun a => a.id != al.id)).length = aliens.length - 1 := by
  have hpart := @List.length_eq_length_filter_add _ aliens (fun a => a.id != al.id)
  have hconv : aliens.filter (fun a => !(a.id != al.id)) =
      aliens.filter (fun a => a.id == al.id) := by
    apply List.filter_congr
    intro a _
    simp [bne]
  have hcount : (aliens.filter (fun a => a.id == al.id)).length =
      List.count al.id (aliens.map Alien.id) := by
    rw [List.count_eq_countP, List.countP_map]
    rw [List.countP_eq_length_filter]
    rfl
  have hone : List.count al.id (aliens.map Alien.id) = 1 :=
    List.count_eq_one_of_mem hnd (List.mem_map_of_mem Alien.id hmem)
  simp only [hconv] at hpart
  omega

/-- Distinctness of alien identities survives the removal step. -/
theorem nodup_filter_ids (aliens : List Alien) (al : Alien)
    (hnd : (aliens.map Alien.id).Nodup) :
    ((aliens.filter (fun a => a.id != al.id)).map Alien.id).Nodup :=
  hnd.sublist ((List.filter_sublist aliens).map Alien.id)

/-- Score gained by the first collision loop: 10 points per removed alien
(alien identities assumed distinct, as produced by setup_aliens). -/
theorem ccLoop_score : ∀ (snapshot : List Bullet) (p : Player)
    (pbs : List Bullet) (aliens : List Alien) (score : Int),
    (aliens.map Alien.id).Nodup →
    (ccLoop snapshot p pbs aliens score).2.2.2 =
      score + 10 * ((aliens.length - (ccLoop snapshot p pbs aliens score).2.2.1.length : Nat) : Int) := by
  intro snapshot
  induction snapshot with
  | nil =>
    intro p pbs aliens score _
    simp [ccLoop]
  | cons b rest ih =>
    intro p pbs aliens score hnd
    simp only [ccLoop]
    cases hfind : spritecollideany b aliens with
    | some al =>
      simp only [hfind]
      have hmem : al ∈ aliens := List.mem_of_find?_eq_some hfind
      have hlen : (aliens.filter (fun a => a.id != al.id)).length = aliens.length - 1 :=
        length_filter_ne_id aliens al hmem hnd
      have hnd' : ((aliens.filter (fun a => a.id != al.id)).map Alien.id).Nodup :=
        nodup_filter_ids aliens al hnd
      have hrec := ih { p with bullets := p.bullets.erase b.id }
        (pbs.filter (fun pb => pb.id != b.id))
        (aliens.filter (fun a => a.id != al.id)) (score + 10) hnd'
      rw [hrec]
      have hle := ccLoop_aliens_sublist rest { p with bullets := p.bullets.erase b.id }
        (pbs.filter (fun pb => pb.id != b.id))
        (aliens.filter (fun a => a.id != al.id)) (score + 10)
      have hle' := hle.length_le
      have hpos : 1 ≤ aliens.length := List.length_pos_of_mem hmem
      omega
    | none =>
      simp only [hfind]
      exact ih _ _ _ _ hnd

/-- After the first collision loop no surviving player bullet overlaps a
surviving alien: each bullet of the group was checked against a superset
of the surviving aliens. -/
theorem ccLoop_no_collide : ∀ (snapshot : List Bullet) (p : Player)
    (pbs : List Bullet) (aliens : List Alien) (score : Int),
    (∀ b ∈ pbs, b ∈ snapshot ∨ ∀ al ∈ aliens, collideRect b.rect al.rect = false) →
    ∀ b ∈ (ccLoop snapshot p pbs aliens score).2.1,
      ∀ al ∈ (ccLoop snapshot p pbs aliens score).2.2.1,
        collideRect b.rect al.rect = false := by
  intro snapshot
  induction snapshot with
  | nil =>
    intro p pbs aliens score hp b hb al hal
    rcases hp b hb with h | h
    · exact absurd h (List.not_mem_nil b)
    · exact h al hal
  | cons b0 rest ih =>
    intro p pbs aliens score hp
    simp only [ccLoop]
    cases hfind : spritecollideany b0 aliens with
    | some al0 =>
      simp only [hfind]
      apply ih
      intro b hb
      have hbpbs : b ∈ pbs := List.mem_of_mem_filter hb
      have hbne : b.id ≠ b0.id := by
        have := List.of_mem_filter hb
        simpa using this
      rcases hp b hbpbs with h | h
      · rcases List.mem_cons.mp h with h0 | h0
        · exact absurd (congrArg Bullet.id h0) hbne
        · exact Or.inl h0
      · exact Or.inr fun al hal => h al (List.mem_of_mem_filter hal)
    | none =>
      simp only [hfind]
      apply ih
      intro b hb
      rcases hp b hb with h | h
      · rcases List.mem_cons.mp h with h0 | h0
        · refine Or.inr fun al hal => ?_
          have hnone := List.find?_eq_none.mp hfind al hal
          rw [h0]
          simpa using hnone
        · exact Or.inl h0
      · exact Or.inr h

/-- The alien-bullet loop of check_collisions removes exactly the first
bullet overlapping the player and reports whether there was one. -/
theorem alienBulletScan_eq (pr : Rect) : ∀ (l : List Bullet),
    alienBulletScan pr l =
      (l.eraseP (fun b => collideRect b.rect pr), l.any (fun b => collideRect b.rect pr)) := by
  intro l
  induction l with
  | nil => rfl
  | cons b rest ih =>
    simp only [alienBulletScan]
    by_cases h : collideRect b.rect pr
    · simp [h, List.eraseP_cons, List.any_cons]
    · simp only [h, if_false, ih, List.eraseP_cons, List.any_cons]
      simp [h]

/-- The alien timer phase does not change the number of aliens. -/
theorem alienShootPhase_aliens_length (aliens : List Alien) (ab : List Bullet)
    (t : Int) (o : Oracle) (ni : Nat) (ls : Int) :
    (alienShootPhase aliens ab t o ni ls).1.length = aliens.length := by
  unfold alienShootPhase
  dsimp only
  split <;> simp

/-- The movement phase does not change the number of aliens. -/
theorem frameP2_aliens_length (s : GameState) (t : Int) :
    (frameP2 s t).aliens.length = s.aliens.length := by
  unfold frameP2
  split
  · dsimp only
    split <;> simp
  · rfl

/-- The shooting phase does not change the number of aliens. -/
theorem frameP3_aliens_length (s : GameState) (t : Int) (o : Oracle) :
    (frameP3 s t o).aliens.length = s.aliens.length := by
  unfold frameP3
  split
  · exact alienShootPhase_aliens_length _ _ _ _ _ _
  · rfl

/-- The collision phase can only remove aliens. -/
theorem frameP4_aliens_le (s : GameState) :
    (frameP4 s).aliens.length ≤ s.aliens.length := by
  have h := ccLoop_aliens_sublist s.player_bullets s.player s.player_bullets
    s.aliens s.score
  exact h.length_le

/-- One whole frame update never increases the number of aliens. -/
theorem updateBlock_aliens_le (s : GameState) (t : Int) (keys : Keys) (o : Oracle) :
    (updateBlock s t keys o).aliens.length ≤ s.aliens.length := by
  have h1 : (updateBlock s t keys o).aliens =
      (frameP4 (frameP3 (frameP2 (frameP1 s keys) t) t o)).aliens := rfl
  rw [h1]
  calc (frameP4 (frameP3 (frameP2 (frameP1 s keys) t) t o)).aliens.length
      ≤ (frameP3 (frameP2 (frameP1 s keys) t) t o).aliens.length :=
        frameP4_aliens_le _
    _ = (frameP2 (frameP1 s keys) t).aliens.length := frameP3_aliens_length _ _ _
    _ = (frameP1 s keys).aliens.length := frameP2_aliens_length _ _
    _ = s.aliens.length := rfl

/-- setup_aliens builds exactly ALIEN_ROWS * ALIEN_COLS aliens. -/
theorem setup_aliens_length (delays : Nat → Int) :
    (setup_aliens delays).length = ALIEN_ROWS * ALIEN_COLS := rfl

/-- Invariant of the player's ship: fixed width and speed, x a multiple of
5 between 0 and 750 inclusive. -/
def PlayerOK (p : Player) : Prop :=
  p.rect.w = 50 ∧ p.speed = 5 ∧ 0 ≤ p.rect.x ∧ p.rect.x ≤ 750 ∧ 5 ∣ p.rect.x

/-- The fresh player satisfies the invariant (x = 375). -/
theorem playerOK_init : PlayerOK Player.init :=
  ⟨rfl, rfl, by decide, by decide, ⟨75, by decide⟩⟩

/-- Player.update preserves the invariant: a move of 5 only happens from a
position strictly inside the screen, and positions stay multiples of 5,
so the ship lands exactly on the edges and never overshoots. -/
theorem playerOK_update (p : Player) (keys : Keys) (h : PlayerOK p) :
    PlayerOK (p.update keys) := by
  obtain ⟨⟨px, py, pw, ph⟩, spd, bl, mb⟩ := p
  obtain ⟨hw, hs, h0, h1, hd⟩ := h
  dsimp only at hw hs h0 h1 hd
  subst hw hs
  unfold Player.update PlayerOK
  dsimp only [Rect.left, Rect.right]
  have hsw : SCREEN_WIDTH = 800 := rfl
  split_ifs with hL hR hR
  · obtain ⟨_, hx⟩ := hL
    obtain ⟨_, hr⟩ := hR
    dsimp only at hr
    dsimp only
    exact ⟨rfl, rfl, by omega, by omega, by omega⟩
  · obtain ⟨_, hx⟩ := hL
    dsimp only
    exact ⟨rfl, rfl, by omega, by omega, by omega⟩
  · obtain ⟨_, hr⟩ := hR
    dsimp only at hr
    dsimp only
    exact ⟨rfl, rfl, by omega, by omega, by omega⟩
  · exact ⟨rfl, rfl, h0, h1, hd⟩

/-- The invariant holds after any sequence of per-frame updates. -/
theorem playerOK_foldl (ks : List Keys) :
    ∀ p, PlayerOK p → PlayerOK (ks.foldl Player.update p) := by
  induction ks with
  | nil => intro p h; exact h
  | cons k rest ih =>
    intro p h
    rw [List.foldl_cons]
    exact ih _ (playerOK_update p k h)

end Shooter

/-- C1: on every 20x10 grid, clear_lines removes exactly the full rows and
stacks one empty row on top per removed row, returns the number of removed
rows, keeps the dimensions at 20 rows of 10 cells, keeps the surviving
rows in their relative order at the bottom, and leaves no full row (the
characterization is independent of where the full rows sit, adjacent or
not). -/
theorem clear_lines_clears_full_rows (grid : List (List Nat))
    (hlen : grid.length = Tetris.GRID_HEIGHT)
    (hw : ∀ row ∈ grid, row.length = Tetris.GRID_WIDTH) :
    Tetris.clear_lines grid =
      (List.replicate (Tetris.countFull grid) Tetris.emptyRow ++
          grid.filter (fun r => !Tetris.isFullRow r),
        Tetris.countFull grid) ∧
      (Tetris.clear_lines grid).1.length = Tetris.GRID_HEIGHT ∧
      (∀ row ∈ (Tetris.clear_lines grid).1, row.length = Tetris.GRID_WIDTH) ∧
      ∀ row ∈ (Tetris.clear_lines grid).1, Tetris.isFullRow row = false := by
  have h20 : grid.length = 20 := hlen
  have hk : Tetris.countFull grid ≤ 20 := by
    have := List.length_filter_le (fun r => Tetris.isFullRow r) grid
    unfold Tetris.countFull
    omega
  have hmain : Tetris.clear_lines grid =
      (List.replicate (Tetris.countFull grid) Tetris.emptyRow ++
          grid.filter (fun r => !Tetris.isFullRow r),
        0 + Tetris.countFull grid) := by
    unfold Tetris.clear_lines
    have hcast : ((Tetris.GRID_HEIGHT : Nat) : Int) - 1 = ((19 : Nat) : Int) := by decide
    rw [hcast]
    apply Tetris.clearLoop_spec
    · omega
    · intro r hr
      rw [List.drop_eq_nil_of_le (by omega)] at hr
      exact absurd hr (List.not_mem_nil r)
    · omega
  have hmain' : Tetris.clear_lines grid =
      (List.replicate (Tetris.countFull grid) Tetris.emptyRow ++
          grid.filter (fun r => !Tetris.isFullRow r),
        Tetris.countFull grid) := by
    rw [hmain]
    norm_num
  refine ⟨hmain', ?_, ?_, ?_⟩
  · rw [hmain']
    have hpart := @List.length_eq_length_filter_add _ grid (fun r => Tetris.isFullRow r)
    simp only [List.length_append, List.length_replicate]
    unfold Tetris.countFull
    simp only [Bool.not_eq_true'] at hpart ⊢
    omega
  · rw [hmain']
    intro row hrow
    rcases List.mem_append.mp hrow with h | h
    · rw [(List.eq_of_mem_replicate h : row = Tetris.emptyRow)]
      rfl
    · exact hw row (List.mem_of_mem_filter h)
  · rw [hmain']
    intro row hrow
    rcases List.mem_append.mp hrow with h | h
    · rw [(List.eq_of_mem_replicate h : row = Tetris.emptyRow)]
      exact Tetris.isFullRow_emptyRow
    · have := List.of_mem_filter h
      simpa using this

/-- C1 witness: a grid with two adjacent full rows in the middle is fully
emptied and reports two cleared lines. -/
theorem clear_lines_clears_full_rows_witness :
    (Tetris.clear_lines (List.replicate 9 Tetris.emptyRow ++
        [List.replicate 10 1, List.replicate 10 2] ++
        List.replicate 9 Tetris.emptyRow)).1 = List.replicate 20 Tetris.emptyRow ∧
      (Tetris.clear_lines (List.replicate 9 Tetris.emptyRow ++
        [List.replicate 10 1, List.replicate 10 2] ++
        List.replicate 9 Tetris.emptyRow)).2 = 2 := by
  have h := clear_lines_clears_full_rows
    (List.replicate 9 Tetris.emptyRow ++
      [List.replicate 10 1, List.replicate 10 2] ++
      List.replicate 9 Tetris.emptyRow) (by decide) (by decide)
  constructor
  · rw [h.1]
    decide
  · rw [h.1]
    decide

/-- C2: for every piece built over one of the seven shape templates, at
any position and any (nonnegative, in the game always 0-3) rotation
counter r, four extra clockwise rotation steps restore the shape, and the
cell list of get_cells at rotation r + 4 equals the one at rotation r. -/
theorem rotating_four_times_restores_cells (p : Tetris.Piece)
    (hidx : p.shape_idx < 7)
    (hshape : p.shape = Tetris.SHAPES.getD p.shape_idx [])
    (r : Int) (hr : 0 ≤ r) :
    Tetris.rotateOnce^[4] p.shape = p.shape ∧
      Tetris.Piece.get_cells { p with rotation := r + 4 } =
        Tetris.Piece.get_cells { p with rotation := r } := by
  have hlen : p.shape_idx < Tetris.SHAPES.length := by
    have h7 : Tetris.SHAPES.length = 7 := by rfl
    omega
  have hmem : p.shape ∈ Tetris.SHAPES := by
    rw [hshape, List.getD_eq_getElem _ _ hlen]
    exact List.getElem_mem hlen
  have h4 : Tetris.rotateOnce^[4] p.shape = p.shape :=
    Tetris.rotateOnce_four_on_SHAPES p.shape hmem
  refine ⟨h4, ?_⟩
  obtain ⟨si, ci, sh, px, py, rot⟩ := p
  unfold Tetris.Piece.get_cells Tetris.Piece.get_rotated_shape
  simp only
  have htn : (r + 4).toNat = r.toNat + 4 := by omega
  rw [htn, Function.iterate_add_apply, h4]

/-- C2 witness: the T piece at its spawn position, rotation 1 versus 5. -/
theorem rotating_four_times_restores_cells_witness :
    Tetris.rotateOnce^[4] (Tetris.Piece.init 2 3).shape = (Tetris.Piece.init 2 3).shape ∧
      Tetris.Piece.get_cells { Tetris.Piece.init 2 3 with rotation := 1 + 4 } =
        Tetris.Piece.get_cells { Tetris.Piece.init 2 3 with rotation := 1 } :=
  rotating_four_times_restores_cells (Tetris.Piece.init 2 3)
    (by decide) (by decide) 1 (by decide)

/-- C3: for every handled key event, when the attempted move lands in an
invalid position the mutation is reverted so the piece is exactly as
before (the event handler never writes the grid), and when it is valid the
piece keeps the attempted position; the game keeps the rotation counter in
0..3, under which the rotation revert is exact. -/
theorem invalid_move_reverted (k : Tetris.TKey) (p : Tetris.Piece)
    (grid : List (List Nat)) (h0 : 0 ≤ p.rotation) (h4 : p.rotation < 4) :
    (Tetris.is_valid_position (Tetris.moveAttempt k p) grid = false →
        Tetris.handle_key k p grid = p) ∧
      (Tetris.is_valid_position (Tetris.moveAttempt k p) grid = true →
        Tetris.handle_key k p grid = Tetris.moveAttempt k p) ∧
      ∀ running : Bool,
        Tetris.tetrisProcessEvent false grid (running, p) (Tetris.TEvent.keydown k) =
          (running, Tetris.handle_key k p grid) := by
  obtain ⟨si, ci, sh, px, py, rot⟩ := p
  dsimp only at h0 h4
  refine ⟨?_, ?_, fun _ => rfl⟩
  · intro hinv
    unfold Tetris.handle_key
    simp only [hinv, Bool.false_eq_true, if_false]
    cases k
    · simp [Tetris.moveAttempt, Tetris.moveRevert]
    · simp [Tetris.moveAttempt, Tetris.moveRevert]
    · simp [Tetris.moveAttempt, Tetris.moveRevert]
    · simp only [Tetris.moveAttempt, Tetris.moveRevert, Tetris.Piece.mk.injEq,
        true_and]
      omega
  · intro hval
    simp [Tetris.handle_key, hval]

/-- C3 witness: the O piece at spawn on the empty grid; moving left is
valid and keeps the new position, and at the left wall the left move is
rejected and reverted. -/
theorem invalid_move_reverted_witness :
    (Tetris.is_valid_position
        (Tetris.moveAttempt Tetris.TKey.left { Tetris.Piece.init 1 2 with x := 0 })
        Tetris.create_grid = false ∧
      Tetris.handle_key Tetris.TKey.left { Tetris.Piece.init 1 2 with x := 0 }
        Tetris.create_grid = { Tetris.Piece.init 1 2 with x := 0 }) ∧
    (Tetris.is_valid_position (Tetris.moveAttempt Tetris.TKey.left (Tetris.Piece.init 1 2))
        Tetris.create_grid = true ∧
      Tetris.handle_key Tetris.TKey.left (Tetris.Piece.init 1 2) Tetris.create_grid =
        Tetris.moveAttempt Tetris.TKey.left (Tetris.Piece.init 1 2)) := by
  have hinv : Tetris.is_valid_position
      (Tetris.moveAttempt Tetris.TKey.left { Tetris.Piece.init 1 2 with x := 0 })
      Tetris.create_grid = false := by decide
  have hval : Tetris.is_valid_position
      (Tetris.moveAttempt Tetris.TKey.left (Tetris.Piece.init 1 2))
      Tetris.create_grid = true := by decide
  exact ⟨⟨hinv,
      (invalid_move_reverted Tetris.TKey.left _ Tetris.create_grid (by decide) (by decide)).1 hinv⟩,
    ⟨hval,
      (invalid_move_reverted Tetris.TKey.left _ Tetris.create_grid (by decide) (by decide)).2.1 hval⟩⟩

/-- C8: lock_piece writes the piece colour exactly into the in-bounds
cells of the piece and leaves every other cell and the grid dimensions
unchanged; piece cells outside the grid (in particular y < 0) cause no
write at all.  Moreover is_valid_position checks only the horizontal
bounds, the bottom bound, and overlap for cells with y ≥ 0, so a piece may
validly stick out above the grid. -/
theorem lock_piece_writes_only_piece_cells (p : Tetris.Piece) (grid : List (List Nat))
    (hlen : grid.length = Tetris.GRID_HEIGHT)
    (hw : ∀ row ∈ grid, row.length = Tetris.GRID_WIDTH) :
    (Tetris.lock_piece p grid).length = Tetris.GRID_HEIGHT ∧
      (∀ i : Nat, ((Tetris.lock_piece p grid).getD i []).length = (grid.getD i []).length) ∧
      (∀ y x : Nat, y < Tetris.GRID_HEIGHT → x < Tetris.GRID_WIDTH →
        Tetris.getCell (Tetris.lock_piece p grid) y x =
          if ((x : Int), (y : Int)) ∈ p.get_cells then p.color_idx
          else Tetris.getCell grid y x) ∧
      (Tetris.is_valid_position p grid = true ↔
        ∀ c ∈ p.get_cells, 0 ≤ c.1 ∧ c.1 < (Tetris.GRID_WIDTH : Int) ∧
          c.2 < (Tetris.GRID_HEIGHT : Int) ∧
          (0 ≤ c.2 → Tetris.getCell grid c.2.toNat c.1.toNat = 0)) := by
  refine ⟨?_, ?_, ?_, ?_⟩
  · unfold Tetris.lock_piece
    rw [Tetris.lockFold_length]
    exact hlen
  · intro i
    unfold Tetris.lock_piece
    rw [Tetris.lockFold_rowLen]
  · intro y x hy hx
    have hylen : y < grid.length := by rw [hlen]; exact hy
    have hrow : (grid.getD y []).length = Tetris.GRID_WIDTH := by
      rw [List.getD_eq_getElem _ _ hylen]
      exact hw _ (List.getElem_mem hylen)
    have hxlen : x < (grid.getD y []).length := by rw [hrow]; exact hx
    unfold Tetris.lock_piece
    rw [Tetris.lockFold_getCell p.color_idx p.get_cells grid y x hylen hxlen]
    have hcond : (∃ c ∈ p.get_cells, Tetris.cellInBounds c ∧ c.2.toNat = y ∧ c.1.toNat = x) ↔
        ((x : Int), (y : Int)) ∈ p.get_cells := by
      constructor
      · rintro ⟨c, hc, hb, h2, h1⟩
        obtain ⟨hb1, _, hb3, _⟩ := hb
        have hcx : c.1 = (x : Int) := by omega
        have hcy : c.2 = (y : Int) := by omega
        have : ((x : Int), (y : Int)) = c := by
          rw [← hcx, ← hcy]
        rw [this]
        exact hc
      · intro hmem
        refine ⟨((x : Int), (y : Int)), hmem, ?_, by simp, by simp⟩
        unfold Tetris.cellInBounds
        simp only
        have hyb : (y : Int) < (Tetris.GRID_HEIGHT : Int) := by exact_mod_cast hy
        have hxb : (x : Int) < (Tetris.GRID_WIDTH : Int) := by exact_mod_cast hx
        omega
    by_cases hin : ((x : Int), (y : Int)) ∈ p.get_cells
    · rw [if_pos (hcond.mpr hin), if_pos hin]
    · rw [if_neg (fun hh => hin (hcond.mp hh)), if_neg hin]
  · have hcell : ∀ c : Int × Int,
        ((if c.1 < 0 ∨ (Tetris.GRID_WIDTH : Int) ≤ c.1 ∨ (Tetris.GRID_HEIGHT : Int) ≤ c.2 then
            false
          else if 0 ≤ c.2 ∧ Tetris.getCell grid c.2.toNat c.1.toNat ≠ 0 then false
          else true) = true) ↔
          (0 ≤ c.1 ∧ c.1 < (Tetris.GRID_WIDTH : Int) ∧ c.2 < (Tetris.GRID_HEIGHT : Int) ∧
            (0 ≤ c.2 → Tetris.getCell grid c.2.toNat c.1.toNat = 0)) := by
      intro c
      split_ifs with h1 h2
      · simp only [Bool.false_eq_true, false_iff]
        omega
      · simp only [Bool.false_eq_true, false_iff]
        omega
      · simp only [true_iff]
        omega
    unfold Tetris.is_valid_position
    rw [List.all_eq_true]
    exact ⟨fun H c hc => (hcell c).mp (H c hc), fun H c hc => (hcell c).mpr (H c hc)⟩

/-- C8 witness: a T piece overlapping the top border (one cell at y = -1)
locked into the empty grid colours its three in-grid cells, discards the
off-grid cell without error, leaves an untouched cell empty, and keeps 20
rows; the spawn position is nevertheless valid. -/
theorem lock_piece_writes_only_piece_cells_witness :
    Tetris.getCell
        (Tetris.lock_piece ⟨2, 3, [[0, 1, 0], [1, 1, 1]], 4, -1, 0⟩ Tetris.create_grid) 0 4 = 3 ∧
      Tetris.getCell
        (Tetris.lock_piece ⟨2, 3, [[0, 1, 0], [1, 1, 1]], 4, -1, 0⟩ Tetris.create_grid) 0 0 = 0 ∧
      (Tetris.lock_piece ⟨2, 3, [[0, 1, 0], [1, 1, 1]], 4, -1, 0⟩ Tetris.create_grid).length =
        Tetris.GRID_HEIGHT ∧
      Tetris.is_valid_position ⟨2, 3, [[0, 1, 0], [1, 1, 1]], 4, -1, 0⟩ Tetris.create_grid = true := by
  have h := lock_piece_writes_only_piece_cells ⟨2, 3, [[0, 1, 0], [1, 1, 1]], 4, -1, 0⟩
    Tetris.create_grid (by decide) (by decide)
  refine ⟨?_, ?_, h.1, ?_⟩
  · rw [h.2.2.1 0 4 (by decide) (by decide)]
    decide
  · rw [h.2.2.1 0 0 (by decide) (by decide)]
    decide
  · exact (h.2.2.2).mpr (by decide)

/-- C4: every cell of every grid reachable in a run of the puzzle game
holds a value at most 7 (and, being a natural number, at least 0): the
start grid is all zero, lock_piece writes color_idx = shape_idx + 1 with
shape_idx in 0..6, and clear_lines only inserts all-zero rows. -/
theorem grid_cells_bounded (g : List (List Nat)) (h : Tetris.Reachable g) :
    ∀ row ∈ g, ∀ c ∈ row, c ≤ 7 :=
  (Tetris.reachable_gridOK g h).2.2

/-- C4 witness: a cell of the grid obtained by locking an I piece into the
empty grid. -/
theorem grid_cells_bounded_witness :
    ((Tetris.lock_piece ⟨0, 1, [[1, 1, 1, 1]], 3, 18, 0⟩ Tetris.create_grid).getD 18 []).getD 3 0 ≤ 7 := by
  have h := grid_cells_bounded
    (Tetris.lock_piece ⟨0, 1, [[1, 1, 1, 1]], 3, 18, 0⟩ Tetris.create_grid)
    (Tetris.Reachable.lock _ _ (by decide) (by decide) (by decide) Tetris.Reachable.init)
  exact h
    ((Tetris.lock_piece ⟨0, 1, [[1, 1, 1, 1]], 3, 18, 0⟩ Tetris.create_grid).getD 18 [])
    (by decide)
    (((Tetris.lock_piece ⟨0, 1, [[1, 1, 1, 1]], 3, 18, 0⟩ Tetris.create_grid).getD 18 []).getD 3 0)
    (by decide)

/-- C5: the state sizes are bounded: every reachable puzzle grid is
exactly 20 rows of 10 cells; the shooter starts with exactly 50 aliens
(5 rows by 10 columns) and a frame update never increases the alien
count; and shoot returns None and adds nothing once max_bullets (2)
bullets are live, so the player's bullet list never grows beyond 2. -/
theorem state_sizes_bounded :
    (∀ g, Tetris.Reachable g →
      g.length = Tetris.GRID_HEIGHT ∧ ∀ row ∈ g, row.length = Tetris.GRID_WIDTH) ∧
    (∀ delays : Nat → Int, (Shooter.setup_aliens delays).length = 50) ∧
    (∀ (s : Shooter.GameState) (t : Int) (keys : Shooter.Keys) (o : Shooter.Oracle),
      (Shooter.updateBlock s t keys o).aliens.length ≤ s.aliens.length) ∧
    ∀ (p : Shooter.Player) (nid : Nat), p.max_bullets = 2 →
      (p.bullets.length ≤ 2 → ((p.shoot nid).2).bullets.length ≤ 2) ∧
      (2 ≤ p.bullets.length → (p.shoot nid).1 = none ∧ (p.shoot nid).2 = p) := by
  refine ⟨?_, ?_, ?_, ?_⟩
  · intro g h
    exact ⟨(Tetris.reachable_gridOK g h).1, (Tetris.reachable_gridOK g h).2.1⟩
  · intro delays
    exact Shooter.setup_aliens_length delays
  · exact Shooter.updateBlock_aliens_le
  · intro p nid hm
    unfold Shooter.Player.shoot
    rw [hm]
    constructor
    · intro hle
      split_ifs with h
      · dsimp only
        rw [List.length_append]
        simp only [List.length_singleton]
        omega
      · exact hle
    · intro hge
      rw [if_neg (by omega)]
      exact ⟨rfl, rfl⟩

/-- C5 witness: the empty start grid has 20 rows; shooting from the fresh
player keeps at most 2 bullets; shooting with 2 live bullets returns
None. -/
theorem state_sizes_bounded_witness :
    Tetris.create_grid.length = Tetris.GRID_HEIGHT ∧
      ((Shooter.Player.init.shoot 0).2).bullets.length ≤ 2 ∧
      (({ Shooter.Player.init with bullets := [0, 1] } : Shooter.Player).shoot 2).1 = none := by
  have h := state_sizes_bounded
  refine ⟨(h.1 Tetris.create_grid Tetris.Reachable.init).1, ?_, ?_⟩
  · exact (h.2.2.2 Shooter.Player.init 0 (by decide)).1 (by decide)
  · exact ((h.2.2.2 { Shooter.Player.init with bullets := [0, 1] } 2 (by decide)).2
      (by decide)).1

/-- C6: Bullet.update moves the bullet by speed * direction and reports
the kill exactly when the moved rect is entirely off screen (bottom < 0 or
top > SCREEN_HEIGHT); check_collisions only removes aliens and player
bullets, pays 10 points per removed alien (alien identities distinct), at
its end no surviving player bullet overlaps a surviving alien, and it
removes exactly the first alien bullet overlapping the player, reporting
whether one did. -/
theorem bullets_removed_on_exit_or_collision :
    (∀ b : Shooter.Bullet,
      ((Shooter.Bullet.update b).2 = true ↔
        ((Shooter.Bullet.update b).1.rect.bottom < 0 ∨
          (Shooter.Bullet.update b).1.rect.top > Shooter.SCREEN_HEIGHT)) ∧
      (Shooter.Bullet.update b).1.rect.y = b.rect.y + b.speed * b.direction) ∧
    ∀ (player : Shooter.Player) (pbs abullets : List Shooter.Bullet)
      (aliens : List Shooter.Alien) (score : Int),
      List.Sublist (Shooter.check_collisions player pbs abullets aliens score).aliens aliens ∧
      List.Sublist (Shooter.check_collisions player pbs abullets aliens score).player_bullets pbs ∧
      ((aliens.map Shooter.Alien.id).Nodup →
        (Shooter.check_collisions player pbs abullets aliens score).score =
          score + 10 * ((aliens.length -
            (Shooter.check_collisions player pbs abullets aliens score).aliens.length : Nat) : Int)) ∧
      (∀ b ∈ (Shooter.check_collisions player pbs abullets aliens score).player_bullets,
        ∀ al ∈ (Shooter.check_collisions player pbs abullets aliens score).aliens,
          Shooter.collideRect b.rect al.rect = false) ∧
      (Shooter.check_collisions player pbs abullets aliens score).alien_bullets =
        abullets.eraseP (fun b => Shooter.collideRect b.rect player.rect) ∧
      (Shooter.check_collisions player pbs abullets aliens score).player_hit =
        abullets.any (fun b => Shooter.collideRect b.rect player.rect) := by
  constructor
  · intro b
    constructor
    · unfold Shooter.Bullet.update
      dsimp only
      split_ifs with h
      · simpa using h
      · simpa using h
    · unfold Shooter.Bullet.update
      dsimp only
      split_ifs <;> rfl
  · intro player pbs abullets aliens score
    refine ⟨?_, ?_, ?_, ?_, ?_, ?_⟩
    · exact Shooter.ccLoop_aliens_sublist pbs player pbs aliens score
    · exact Shooter.ccLoop_pbs_sublist pbs player pbs aliens score
    · intro hnd
      exact Shooter.ccLoop_score pbs player pbs aliens score hnd
    · exact Shooter.ccLoop_no_collide pbs player pbs aliens score (fun b hb => Or.inl hb)
    · show (Shooter.alienBulletScan
          (Shooter.ccLoop pbs player pbs aliens score).1.rect abullets).1 = _
      rw [Shooter.ccLoop_player_rect, Shooter.alienBulletScan_eq]
    · show (Shooter.alienBulletScan
          (Shooter.ccLoop pbs player pbs aliens score).1.rect abullets).2 = _
      rw [Shooter.ccLoop_player_rect, Shooter.alienBulletScan_eq]

/-- C6 witness: one player bullet overlapping the single alien is removed
together with the alien for 10 points; the one alien bullet overlapping
the player is removed with a hit report; a bullet above the screen kills
itself on update. -/
theorem bullets_removed_on_exit_or_collision_witness :
    (Shooter.check_collisions Shooter.Player.init
        [⟨5, ⟨110, 105, 3, 10⟩, -1, 7⟩] [⟨6, ⟨380, 565, 3, 10⟩, 1, 7⟩]
        [⟨0, ⟨100, 100, 40, 30⟩, 1, 0, 3000⟩] 0).score = 10 ∧
      (Shooter.check_collisions Shooter.Player.init
        [⟨5, ⟨110, 105, 3, 10⟩, -1, 7⟩] [⟨6, ⟨380, 565, 3, 10⟩, 1, 7⟩]
        [⟨0, ⟨100, 100, 40, 30⟩, 1, 0, 3000⟩] 0).player_hit = true ∧
      (Shooter.Bullet.update ⟨7, ⟨10, -5, 3, 10⟩, -1, 7⟩).2 = true := by
  have h := bullets_removed_on_exit_or_collision
  have h2 := h.2 Shooter.Player.init
    [⟨5, ⟨110, 105, 3, 10⟩, -1, 7⟩] [⟨6, ⟨380, 565, 3, 10⟩, 1, 7⟩]
    [⟨0, ⟨100, 100, 40, 30⟩, 1, 0, 3000⟩] 0
  refine ⟨?_, ?_, ?_⟩
  · have hs := h2.2.2.1 (by decide)
    rw [hs]
    decide
  · rw [h2.2.2.2.2.2]
    decide
  · exact ((h.1 ⟨7, ⟨10, -5, 3, 10⟩, -1, 7⟩).1).mpr (by decide)

/-- C10 (amended): starting from the centred initial position, after any
sequence of Player.update calls the ship's rect satisfies the claimed
bounds left > -PLAYER_SPEED and right < SCREEN_WIDTH + PLAYER_SPEED, and
in fact the stronger 0 ≤ left and right ≤ SCREEN_WIDTH: because x starts
at 375 and every move is exactly 5 pixels guarded by left > 0 or
right < SCREEN_WIDTH, x stays a multiple of 5 in 0..750, so the ship
reaches the screen edges exactly and never overhangs. -/
theorem player_stays_on_screen (ks : List Shooter.Keys) :
    0 ≤ (ks.foldl Shooter.Player.update Shooter.Player.init).rect.left ∧
      (ks.foldl Shooter.Player.update Shooter.Player.init).rect.right ≤
        Shooter.SCREEN_WIDTH ∧
      (ks.foldl Shooter.Player.update Shooter.Player.init).rect.left >
        -Shooter.PLAYER_SPEED ∧
      (ks.foldl Shooter.Player.update Shooter.Player.init).rect.right <
        Shooter.SCREEN_WIDTH + Shooter.PLAYER_SPEED := by
  have h := Shooter.playerOK_foldl ks Shooter.Player.init Shooter.playerOK_init
  obtain ⟨hw, hs, h0, h1, hd⟩ := h
  have hsw : Shooter.SCREEN_WIDTH = 800 := rfl
  have hps : Shooter.PLAYER_SPEED = 5 := rfl
  dsimp only [Shooter.Rect.left, Shooter.Rect.right]
  omega

/-- C10 counterexample: seventy-five frames of holding left put the ship
exactly at the screen edge, rect.left = 0, refuting that the player is
never exactly at the edge; together with the amended invariant
(0 ≤ left, right ≤ SCREEN_WIDTH) the claimed overhang of up to 4 pixels
never occurs. -/
theorem player_reaches_edge_exactly :
    ((List.replicate 75 ({ left := true, right := false } : Shooter.Keys)).foldl
        Shooter.Player.update Shooter.Player.init).rect.left = 0 := by
  set_option maxRecDepth 4000 in decide

/-- C9: at the end of every frame update of the shooter, alien_speed
equals ALIEN_SPEED + (50 - remaining aliens) // 10 (Python floor
division): the unconditional recomputation at the end of the update block
makes the speed a pure function of the remaining alien count, so the
transient 0.5 increase applied on a swarm drop is overwritten in the same
frame and never reaches a later frame. -/
theorem alien_speed_tracks_alien_count (s : Shooter.GameState) (t : Int)
    (keys : Shooter.Keys) (o : Shooter.Oracle) :
    (Shooter.updateBlock s t keys o).alien_speed =
      ((Shooter.ALIEN_SPEED +
        Int.fdiv (((Shooter.ALIEN_ROWS * Shooter.ALIEN_COLS : Nat) : Int) -
          ((Shooter.updateBlock s t keys o).aliens.length : Int)) 10 : Int) : ℚ) := rfl

/-- C7: in both game loops, an iteration whose polled events contain no
QUIT leaves running exactly as it was (in particular true), whatever the
game-over or win flags are; only a QUIT event can clear it. -/
theorem loop_continues_without_quit
    (tEvents : List Tetris.TEvent) (sEvents : List Shooter.SEvent)
    (go : Bool) (grid : List (List Nat)) (running : Bool) (piece : Tetris.Piece)
    (sgo swin srunning : Bool) (player : Shooter.Player)
    (pbs : List Shooter.Bullet) (nid : Nat)
    (ht : ∀ e ∈ tEvents, e ≠ Tetris.TEvent.quit)
    (hs : ∀ e ∈ sEvents, e ≠ Shooter.SEvent.quit) :
    (Tetris.tetrisProcessEvents go grid tEvents running piece).1 = running ∧
      (Shooter.shooterProcessEvents sgo swin sEvents srunning player pbs nid).1 = srunning :=
  ⟨Tetris.tetris_events_keep_running go grid tEvents (running, piece) ht,
    Shooter.shooter_events_keep_running sgo swin sEvents (srunning, player, pbs, nid) hs⟩

/-- C7 witness: one frame of each loop with a key event but no QUIT, in a
game-over state, keeps running true. -/
theorem loop_continues_without_quit_witness :
    (Tetris.tetrisProcessEvents true Tetris.create_grid
        [Tetris.TEvent.keydown Tetris.TKey.left, Tetris.TEvent.other]
        true (Tetris.Piece.init 0 1)).1 = true ∧
      (Shooter.shooterProcessEvents true false [Shooter.SEvent.keySpace]
        true Shooter.Player.init [] 0).1 = true :=
  loop_continues_without_quit
    [Tetris.TEvent.keydown Tetris.TKey.left, Tetris.TEvent.other] [Shooter.SEvent.keySpace]
    true Tetris.create_grid true (Tetris.Piece.init 0 1)
    true false true Shooter.Player.init [] 0
    (by decide) (by decide)
